import Mathlib

/-!
Verification of the usdc-v2-backend flow-tracking core against its
natural-language specification.  The definitions below are a shallow
embedding of the TypeScript sources:

* `src/modules/tx-tracker/pollers/base.ts`   — attribute indexing, decoders
* `src/modules/tx-tracker/pollers/noblePoller.ts`  — Noble deposit scan
* `src/modules/tx-tracker/pollers/namadaPoller.ts` — Namada deposit scan
* `src/modules/tx-tracker/pollers/evmPoller.ts`    — EVM USDC-mint scan
* `src/modules/tx-tracker/trackerManager.ts`       — engine steps
* `src/modules/tx-tracker/service.ts` / `repository.ts` — flow service
* `src/jobs` — resume-on-startup and the polling-job processor

JavaScript idioms are modelled explicitly: `undefined` becomes `none`,
string truthiness becomes a `≠ ""` test, and the `undefined` / `null`
distinction of `startBlock` is kept as `Option (Option Nat)`.
-/

set_option maxRecDepth 10000

namespace UsdcV2

/-! ## Tendermint events and attribute indexing (pollers/base.ts) -/

/-- One event attribute as delivered by the Tendermint RPC. -/
structure Attr where
  key : String
  value : String
deriving DecidableEq, Repr

/-- One Tendermint event: a type tag plus attributes. -/
structure Event where
  type : String
  attributes : List Attr
deriving DecidableEq, Repr

/-- `indexAttributes` from pollers/base.ts: builds a string map from the
attribute list, skipping entries with a falsy (empty) key; a later
occurrence of a key overwrites an earlier one, so a lookup returns the
last occurrence. -/
def indexAttributes (attrs : List Attr) (k : String) : Option String :=
  ((attrs.filter (fun a => a.key ≠ "")).reverse.find? (fun a => a.key = k)).map (·.value)

/-! ## A model of JSON values and of the platform `JSON.parse`

The TypeScript code calls the platform `JSON.parse`; we model the JSON
grammar fragment the tracker actually exchanges (objects, arrays,
strings with simple escapes, integer numbers, booleans, null).  `parse`
consumes the whole input, returning `none` where `JSON.parse` throws. -/

inductive Json where
  | str : String → Json
  | num : Int → Json
  | bool : Bool → Json
  | null : Json
  | arr : List Json → Json
  | obj : List (String × Json) → Json

/-- Field lookup on a parsed JSON value (`parsed?.field` in JS); the
first binding wins, matching JS object semantics for distinct keys. -/
def Json.get : Json → String → Option Json
  | .obj fields, k => (fields.find? (fun f => f.fst = k)).map (·.snd)
  | _, _ => none

/-- `toString` as JS applies it to a decoded JSON field. -/
def Json.jsToString : Json → String
  | .str s => s
  | .num n => toString n
  | .bool b => if b then ("true") else ("false")
  | .null => ("null")
  | .arr _ => ("")
  | .obj _ => ("")

def jsonIsWs (c : Char) : Bool :=
  c = ' ' || c = '\n' || c = '\t' || c = '\r'

def jsonSkipWs : List Char → List Char
  | [] => []
  | c :: cs => if jsonIsWs c then jsonSkipWs cs else c :: cs

/-- Parse the body of a string literal (opening quote already consumed). -/
def jsonParseStringBody : List Char → Option (String × List Char)
  | [] => none
  | c :: cs =>
    if c = '"' then some (("", cs))
    else if c = '\\' then
      match cs with
      | [] => none
      | e :: cs2 =>
        let esc : Option Char :=
          if e = '"' then some '"'
          else if e = '\\' then some '\\'
          else if e = '/' then some '/'
          else if e = 'n' then some '\n'
          else if e = 't' then some '\t'
          else if e = 'r' then some '\r'
          else none
        match esc with
        | none => none
        | some ch =>
          match jsonParseStringBody cs2 with
          | some (s, rest) => some ((String.mk (ch :: s.toList), rest))
          | none => none
    else
      match jsonParseStringBody cs with
      | some (s, rest) => some ((String.mk (c :: s.toList), rest))
      | none => none

def jsonDigit (c : Char) : Option Nat :=
  if '0' ≤ c ∧ c ≤ '9' then some (c.toNat - '0'.toNat) else none

def jsonParseDigits (acc : Nat) : List Char → (Nat × List Char)
  | [] => (acc, [])
  | c :: cs =>
    match jsonDigit c with
    | some d => jsonParseDigits (acc * 10 + d) cs
    | none => (acc, c :: cs)

/-- Parse an integer JSON number (the tracker never exchanges fractions). -/
def jsonParseNumber : List Char → Option (Int × List Char)
  | [] => none
  | c :: cs =>
    if c = '-' then
      match cs with
      | [] => none
      | d :: ds =>
        match jsonDigit d with
        | some n => let (v, rest) := jsonParseDigits n ds; some ((-(v : Int), rest))
        | none => none
    else
      match jsonDigit c with
      | some n => let (v, rest) := jsonParseDigits n cs; some (((v : Int), rest))
      | none => none

mutual

/-- Fuel-indexed recursive-descent JSON value parser. -/
def jsonParseVal (fuel : Nat) (cs : List Char) : Option (Json × List Char) :=
  match fuel with
  | 0 => none
  | fuel + 1 =>
    match jsonSkipWs cs with
    | [] => none
    | c :: rest =>
      if c = '"' then
        match jsonParseStringBody rest with
        | some (s, r) => some ((Json.str s, r))
        | none => none
      else if c = '{' then
        jsonParseMembers fuel (jsonSkipWs rest) true
      else if c = '[' then
        jsonParseElems fuel (jsonSkipWs rest) true
      else if c = 't' then
        match rest with
        | 'r' :: 'u' :: 'e' :: r => some ((Json.bool true, r))
        | _ => none
      else if c = 'f' then
        match rest with
        | 'a' :: 'l' :: 's' :: 'e' :: r => some ((Json.bool false, r))
        | _ => none
      else if c = 'n' then
        match rest with
        | 'u' :: 'l' :: 'l' :: r => some ((Json.null, r))
        | _ => none
      else
        match jsonParseNumber (c :: rest) with
        | some (n, r) => some ((Json.num n, r))
        | none => none

/-- Parse the members of an object, the opening brace already consumed.
`first` records whether no member has been read yet. -/
def jsonParseMembers (fuel : Nat) (cs : List Char) (first : Bool) :
    Option (Json × List Char) :=
  match fuel with
  | 0 => none
  | fuel + 1 =>
    match cs with
    | [] => none
    | c :: rest =>
      if c = '}' ∧ first then some ((Json.obj [], rest))
      else
        match jsonSkipWs (c :: rest) with
        | '"' :: r1 =>
          match jsonParseStringBody r1 with
          | none => none
          | some (k, r2) =>
            match jsonSkipWs r2 with
            | ':' :: r3 =>
              match jsonParseVal fuel r3 with
              | none => none
              | some (v, r4) =>
                match jsonSkipWs r4 with
                | ',' :: r5 =>
                  match jsonParseMembers fuel (jsonSkipWs r5) false with
                  | some (Json.obj fs, r6) => some ((Json.obj ((k, v) :: fs), r6))
                  | _ => none
                | '}' :: r5 => some ((Json.obj [(k, v)], r5))
                | _ => none
            | _ => none
        | _ => none

/-- Parse the elements of an array, the opening bracket already consumed. -/
def jsonParseElems (fuel : Nat) (cs : List Char) (first : Bool) :
    Option (Json × List Char) :=
  match fuel with
  | 0 => none
  | fuel + 1 =>
    match cs with
    | [] => none
    | c :: rest =>
      if c = ']' ∧ first then some ((Json.arr [], rest))
      else
        match jsonParseVal fuel (c :: rest) with
        | none => none
        | some (v, r1) =>
          match jsonSkipWs r1 with
          | ',' :: r2 =>
            match jsonParseElems fuel (jsonSkipWs r2) false with
            | some (Json.arr vs, r3) => some ((Json.arr (v :: vs), r3))
            | _ => none
          | ']' :: r2 => some ((Json.arr [v], r2))
          | _ => none

end

/-- Model of `JSON.parse`: parse one value, require only whitespace after
it; `none` models a thrown `SyntaxError`. -/
def parseJson (s : String) : Option Json :=
  match jsonParseVal (s.length + 1) s.toList with
  | some (j, rest) => if jsonSkipWs rest = [] then some j else none
  | none => none

/-! ## Base64 decoding (`Buffer.from(value, 'base64').toString('utf-8')`)

Node's decoder ignores characters outside the base64 alphabet (padding
included), converts complete groups of four sextets to three bytes and a
trailing group of two or three sextets to one or two bytes.  The
tracker's payloads are ASCII, for which the utf-8 step is the identity
on byte values. -/

def base64Sextet (c : Char) : Option Nat :=
  if 'A' ≤ c ∧ c ≤ 'Z' then some (c.toNat - 'A'.toNat)
  else if 'a' ≤ c ∧ c ≤ 'z' then some (c.toNat - 'a'.toNat + 26)
  else if '0' ≤ c ∧ c ≤ '9' then some (c.toNat - '0'.toNat + 52)
  else if c = '+' then some 62
  else if c = '/' then some 63
  else none

def base64Bytes : List Nat → List Nat
  | a :: b :: c :: d :: rest =>
    (a * 4 + b / 16) :: ((b % 16) * 16 + c / 4) :: ((c % 4) * 64 + d) ::
      base64Bytes rest
  | [a, b, c] => [a * 4 + b / 16, (b % 16) * 16 + c / 4]
  | [a, b] => [a * 4 + b / 16]
  | _ => []

def base64DecodeString (s : String) : String :=
  String.mk ((base64Bytes (s.toList.filterMap base64Sextet)).map (fun b => Char.ofNat b))

/-! ## The shared and the inline packet_data decoders -/

/-- `parseMaybeJsonOrBase64Json` from pollers/base.ts: a falsy input
yields `undefined`; otherwise try `JSON.parse` on the raw value and, if
that throws, on the base64-decoded value. -/
def parseMaybeJsonOrBase64Json (value : Option String) : Option Json :=
  match value with
  | none => none
  | some s =>
    if s = "" then none
    else
      match parseJson s with
      | some j => some j
      | none => parseJson (base64DecodeString s)

/-- The inline packet_data decode of namadaPoller.ts (lines 107–116):
a string is fed to `JSON.parse` (a throw is caught by the surrounding
handler, modelled as `none`); an absent attribute falls through to the
`pdata || {}` branch and yields an empty object.  (The intermediate
`'value' in pdata` branch applies only to non-string `pdata`, which
`indexAttributes` never produces.) -/
def namadaParsePacketData (pdata : Option String) : Option Json :=
  match pdata with
  | some s => parseJson s
  | none => some (Json.obj [])

/-- `String.prototype.replace` with a plain-string pattern replaces only
the first occurrence. -/
def jsReplaceFirstAux (pat : List Char) : List Char → List Char
  | [] => []
  | c :: rest =>
    if pat.isPrefixOf (c :: rest) then (c :: rest).drop pat.length
    else c :: jsReplaceFirstAux pat rest

def jsReplaceFirst (s pat : String) : String :=
  if pat = "" then s else String.mk (jsReplaceFirstAux pat.toList s.toList)

/-! ## The flow data model (modules/tx-tracker/types.ts)

`undefined` object fields become `none`.  `startBlock` keeps the
JavaScript `undefined` / `null` distinction as `Option (Option Nat)`:
`none` is an absent field, `some none` is an explicit `null`, and
`some (some n)` is a height — `ensureStartBlock` treats `null` as
present (`!== undefined`) while `??`-fallbacks treat it as absent. -/

inductive ChainKey where
  | evm
  | noble
  | namada
deriving DecidableEq, Repr

/-- One stage observation (`ChainStage`). -/
structure ChainStage where
  stage : String
  status : Option String
  message : Option String
  txHash : Option String
  occurredAt : Option Nat
  source : String
  metadata : List (String × String)
deriving DecidableEq, Repr

/-- Per-chain progress (`ChainProgressEntry`); an absent `stages` array
behaves like an empty one everywhere it is read, so both are `[]`. -/
structure ChainProgressEntry where
  status : Option String
  txHash : Option String
  startBlock : Option (Option Nat)
  lastCheckedAt : Option Nat
  stages : List ChainStage
  gaslessStages : List ChainStage
deriving DecidableEq, Repr

def emptyEntry : ChainProgressEntry :=
  { status := none, txHash := none, startBlock := none, lastCheckedAt := none,
    stages := [], gaslessStages := [] }

structure ChainProgress where
  evm : Option ChainProgressEntry
  noble : Option ChainProgressEntry
  namada : Option ChainProgressEntry
deriving DecidableEq, Repr

def emptyChainProgress : ChainProgress := { evm := none, noble := none, namada := none }

def ChainProgress.get (p : ChainProgress) : ChainKey → Option ChainProgressEntry
  | .evm => p.evm
  | .noble => p.noble
  | .namada => p.namada

def ChainProgress.set (p : ChainProgress) : ChainKey → Option ChainProgressEntry → ChainProgress
  | .evm, e => { p with evm := e }
  | .noble, e => { p with noble := e }
  | .namada, e => { p with namada := e }

/-- A tracked flow (`TrackedTransaction`); `errorState` is the free-form
record modelled as string key/value pairs. -/
structure Flow where
  id : String
  txHash : Option String
  chain : String
  chainType : String
  flowType : Option String
  initialChain : Option String
  destinationChain : Option String
  status : String
  chainProgress : Option ChainProgress
  metadata : List (String × String)
  lastCheckedAt : Option Nat
  nextCheckAfter : Option Nat
  errorState : Option (List (String × String))
  createdAt : Nat
  updatedAt : Nat
deriving DecidableEq, Repr

/-- The spec's terminal-status set (`completed`, `failed`,
`undetermined`): the vocabulary of the claims under scrutiny. -/
def terminalStatus (s : String) : Bool :=
  s = "completed" || s = "failed" || s = "undetermined"

/-- The `startBlock` stored for a (flow, chain), if any. -/
def startBlockOf (flow : Flow) (c : ChainKey) : Option (Option Nat) :=
  match flow.chainProgress with
  | none => none
  | some p =>
    match p.get c with
    | none => none
    | some e => e.startBlock

/-! ## The tx-tracker service (service.ts, in `src/unnamed/part_006`) -/

/-- The loop body of `determineOverallStatus`: a missing entry returns
`pending` for the whole flow, a `failed` stage returns `failed`. -/
def chainShortCircuit (progress : ChainProgress) (c : ChainKey) : Option String :=
  match progress.get c with
  | none => some ("pending")
  | some entry =>
    if entry.stages.any (fun st => st.status = some ("failed")) then some ("failed")
    else none

/-- The tail of `determineOverallStatus`: the final chain's last stage
decides between `completed` and `pending`. -/
def finalChainStatus (progress : ChainProgress) (lastChain : ChainKey) : String :=
  match progress.get lastChain with
  | none => ("pending")
  | some entry =>
    match entry.stages.getLast? with
    | some lastStage =>
      if lastStage.stage = ("completed") || lastStage.status = some ("confirmed")
      then ("completed") else ("pending")
    | none => ("pending")

/-- `determineOverallStatus` (service.ts): walks the flow-type's chain
order applying `chainShortCircuit`, then falls back to
`finalChainStatus` on the last chain. -/
def determineOverallStatus (flowType : Option String) (progress : ChainProgress) : String :=
  let chains : List ChainKey :=
    if flowType = some ("payment") then [.namada, .noble, .evm] else [.evm, .noble, .namada]
  -- `chains[chains.length - 1]` of the source, spelt per branch
  let lastChain : ChainKey := if flowType = some ("payment") then .evm else .namada
  match chains.findSome? (chainShortCircuit progress) with
  | some s => s
  | none => finalChainStatus progress lastChain

/-- The client-supplied body of `POST /flow/:id/stage`. -/
structure ClientStageUpdate where
  chain : ChainKey
  stage : String
  status : Option String
  message : Option String
  txHash : Option String
  occurredAt : Option Nat
  metadata : List (String × String)
  kind : Option String
  source : Option String
deriving DecidableEq, Repr

/-- The chain-progress value `appendClientStage` builds: the stage is
appended to `stages` (or `gaslessStages` when `kind = gasless`) and the
entry's summary fields are refreshed. -/
def appendClientStageProgress (flow : Flow) (u : ClientStageUpdate) (now : Nat) : ChainProgress :=
  let progress := flow.chainProgress.getD emptyChainProgress
  let entry := (progress.get u.chain).getD emptyEntry
  let stage : ChainStage :=
    { stage := u.stage, status := some (u.status.getD ("pending")), message := u.message,
      txHash := u.txHash, occurredAt := some (u.occurredAt.getD now),
      metadata := u.metadata, source := u.source.getD ("client") }
  let entry1 :=
    if u.kind = some ("gasless") then { entry with gaslessStages := entry.gaslessStages ++ [stage] }
    else { entry with stages := entry.stages ++ [stage] }
  let entry2 :=
    { entry1 with
      status := match u.status with | some s => some s | none => entry.status,
      txHash := match u.txHash with | some h => some h | none => entry.txHash,
      lastCheckedAt := some now }
  progress.set u.chain (some entry2)

/-- `appendClientStage` (service.ts): writes the updated chain progress
together with `status := determineOverallStatus(...)`, whatever the
flow's previous status was.  (The StatusLog row it also writes carries
no flow state and is omitted here.) -/
def appendClientStage (flow : Flow) (u : ClientStageUpdate) (now : Nat) : Flow :=
  let progress := appendClientStageProgress flow u now
  { flow with
    chainProgress := some progress,
    status := determineOverallStatus flow.flowType progress,
    updatedAt := now }

/-- `FINISHED_STATUSES` (repository.ts): note that `undetermined` is not
a member. -/
def finishedStatuses : List String := [("completed"), ("failed"), ("cancelled")]

/-- `findUnfinishedFlows` (repository.ts): flows with a non-null
`flowType` whose status is not in `FINISHED_STATUSES`. -/
def findUnfinishedFlows (flows : List Flow) : List Flow :=
  flows.filter (fun f => f.flowType.isSome && !(finishedStatuses.contains f.status))

/-- The match predicate of `GET /flow/by-hash/:chain/:hash`
(controller.ts): any chain entry whose `txHash` or whose stages carry
the hash.  The `:chain` parameter is validated but not used to filter. -/
def flowCarriesHash (flow : Flow) (h : String) : Bool :=
  let progress := flow.chainProgress.getD emptyChainProgress
  [progress.evm, progress.noble, progress.namada].any (fun e =>
    match e with
    | none => false
    | some entry =>
      entry.txHash = some h || entry.stages.any (fun st => st.txHash = some h))

/-- The `GET /flow/by-hash/:chain/:hash` handler body: it searches
`listUnfinishedFlows()` only; `none` is the 404 response. -/
def flowByHashLookup (flows : List Flow) (h : String) : Option Flow :=
  (findUnfinishedFlows flows).find? (fun f => flowCarriesHash f h)

/-! ## Flow registration (`trackFlow`, service.ts + params.ts) -/

/-- `createPendingEntry` (params.ts). -/
def createPendingEntry : ChainProgressEntry :=
  { emptyEntry with status := some ("pending"), stages := [] }

/-- `buildInitialChainProgress` (params.ts): an explicitly supplied
progress wins; otherwise the flow type decides which chain entries are
created, each carrying `startBlock := <computed> ?? null`. -/
def buildInitialChainProgress (flowType : Option String)
    (nobleStart namadaStart evmStart : Option Nat)
    (existing : Option ChainProgress) : Option ChainProgress :=
  match existing with
  | some e => some e
  | none =>
    if flowType = some ("deposit") then
      some { evm := none,
             noble := some { createPendingEntry with startBlock := some nobleStart },
             namada := some { createPendingEntry with startBlock := some namadaStart } }
    else if flowType = some ("payment") then
      some { evm := some { createPendingEntry with startBlock := some evmStart },
             noble := some { createPendingEntry with startBlock := some nobleStart },
             namada := some { createPendingEntry with startBlock := some namadaStart } }
    else none

/-- The body of `POST /track/flow` (`MultiChainTrackInput`). -/
structure MultiChainTrackInput where
  flowType : Option String
  initialChain : String
  destinationChain : Option String
  chainType : String
  txHash : Option String
  metadata : List (String × String)
  chainProgress : Option ChainProgress
  status : Option String
deriving DecidableEq, Repr

/-- A queued BullMQ polling job (the fields the claims speak about). -/
structure Job where
  name : String
  jobId : String
  flowId : String
  flowType : String
  delay : Option Nat
deriving DecidableEq, Repr

/-- The persistent state the service acts on: the flow table, a fresh-id
counter standing in for the generated primary keys, and the queue. -/
structure ServiceState where
  flows : List Flow
  nextId : Nat
  jobs : List Job
deriving DecidableEq, Repr

/-- `findByHash` (repository.ts): `txHash` is a unique column. -/
def findByHash (flows : List Flow) (h : String) : Option Flow :=
  flows.find? (fun f => f.txHash = some h)

/-- `createMultiChainFlow` (repository.ts): inserts a new row with
`status ?? 'pending'` and `chain := initialChain`. -/
def createMultiChainFlow (s : ServiceState) (input : MultiChainTrackInput)
    (chainProgress : Option ChainProgress) (now : Nat) : Flow × ServiceState :=
  let flow : Flow :=
    { id := ("cuid-") ++ toString s.nextId,
      txHash := input.txHash,
      chain := input.initialChain,
      chainType := input.chainType,
      flowType := input.flowType,
      initialChain := some input.initialChain,
      destinationChain := input.destinationChain,
      status := input.status.getD ("pending"),
      chainProgress := chainProgress,
      metadata := input.metadata,
      lastCheckedAt := none, nextCheckAfter := none, errorState := none,
      createdAt := now, updatedAt := now }
  (flow, { s with flows := s.flows ++ [flow], nextId := s.nextId + 1 })

/-- `resolveStartBlocks` + `trackFlow` (service.ts).  A truthy (non-empty)
`txHash` short-circuits to the existing flow; otherwise the flow is
created and exactly one polling job is enqueued.  The chain tips read by
`resolveStartBlocks` are passed in (`none` models a failed computation),
and `tip - backscan` models `Math.max(0, latest - backscan)`. -/
def trackFlow (s : ServiceState) (input : MultiChainTrackInput)
    (nobleTip namadaTip : Option Nat) (nobleBackscan namadaBackscan : Nat)
    (now : Nat) : Flow × ServiceState :=
  let existing : Option Flow :=
    match input.txHash with
    | some h => if h ≠ "" then findByHash s.flows h else none
    | none => none
  match existing with
  | some f => (f, s)
  | none =>
    let nobleStart : Option Nat :=
      if input.flowType = some ("deposit") ∨ input.flowType = some ("payment")
      then nobleTip.map (fun t => t - nobleBackscan) else none
    let namadaStart : Option Nat :=
      if input.flowType = some ("deposit") ∨ input.flowType = some ("payment")
      then namadaTip.map (fun t => t - namadaBackscan) else none
    let progress := buildInitialChainProgress input.flowType nobleStart namadaStart none
      input.chainProgress
    let (created, s1) := createMultiChainFlow s input progress now
    let job : Job :=
      { name := ("flow-") ++ created.id,
        jobId := ("flow-") ++ created.id ++ ("-") ++ toString now,
        flowId := created.id,
        flowType := created.flowType.getD ("deposit"),
        delay := none }
    (created, { s1 with jobs := s1.jobs ++ [job] })

/-! ## Resume-on-startup and the polling-job processor
(`resumeUnfinishedFlows` and `createTxPollingProcessor`,
`src/unnamed/part_001`) -/

/-- The job `resumeUnfinishedFlows` enqueues for one flow: job id
`resume-<flowId>-<now>` and a 1 s delay. -/
def resumeJobFor (f : Flow) (now : Nat) : Job :=
  { name := ("flow-") ++ f.id,
    jobId := ("resume-") ++ f.id ++ ("-") ++ toString now,
    flowId := f.id,
    flowType := f.flowType.getD ("deposit"),
    delay := some 1000 }

/-- `resumeUnfinishedFlows`: one job per flow in `listUnfinishedFlows()`. -/
def resumeUnfinishedFlows (flows : List Flow) (now : Nat) : List Job :=
  (findUnfinishedFlows flows).map (fun f => resumeJobFor f now)

inductive PollingJobOutcome where
  | flowNotFound
  | skippedFinished
  | engineInvoked
deriving DecidableEq, Repr

/-- The processor of `createTxPollingProcessor`: a missing flow throws;
a flow whose status is `completed` or `failed` — and only those — is
skipped; otherwise `trackerManager.startFlow` runs. -/
def processTxPollingJob (flows : List Flow) (flowId : String) : PollingJobOutcome :=
  match flows.find? (fun f => f.id = flowId) with
  | none => .flowNotFound
  | some flow =>
    if flow.status = ("completed") || flow.status = ("failed") then .skippedFinished
    else .engineInvoked

/-! ## Tracker-engine operations (trackerManager.ts) -/

/-- The entry fields the engine's `updateChainProgress` helper merges in
(`{...chainEntry, ...updates}`): each present field replaces the old
value. -/
structure EntryUpdates where
  status : Option String
  txHash : Option String
  lastCheckedAt : Option Nat
deriving DecidableEq, Repr

def mergeEntry (e : ChainProgressEntry) (u : EntryUpdates) : ChainProgressEntry :=
  { e with
    status := match u.status with | some s => some s | none => e.status,
    txHash := match u.txHash with | some h => some h | none => e.txHash,
    lastCheckedAt := match u.lastCheckedAt with | some t => some t | none => e.lastCheckedAt }

/-- `updateChainProgress` (trackerManager.ts, lines 80–123): re-reads the
flow, merges the chain entry and writes `chainProgress` back — and only
`chainProgress`: `repository.updateChainProgress` is called without a
`status` field, so the overall status is untouched. -/
def updateChainProgressOp (flow : Flow) (chain : ChainKey) (u : EntryUpdates)
    (now : Nat) : Flow :=
  let progress := flow.chainProgress.getD emptyChainProgress
  let entry := (progress.get chain).getD emptyEntry
  { flow with
    chainProgress := some (progress.set chain (some (mergeEntry entry u))),
    updatedAt := now }

/-- `ensureStartBlock` (trackerManager.ts, lines 144–180): a defined
`startBlock` (`!== undefined`, so an explicit `null` included) is
returned untouched; only an absent one is derived from the tip as
`Math.max(0, latest - blockWindowBackscan)` (truncated subtraction) and
persisted.  Returns the height handed to the poller together with the
updated flow. -/
def ensureStartBlock (flow : Flow) (chain : ChainKey) (tip backscan : Nat) :
    Option Nat × Flow :=
  let progress := flow.chainProgress.getD emptyChainProgress
  let entry := progress.get chain
  match entry with
  | some e =>
    match e.startBlock with
    | some v => (v, flow)
    | none =>
      let sb := tip - backscan
      let e1 := { e with startBlock := some (some sb) }
      let flow1 := { flow with chainProgress := some (progress.set chain (some e1)) }
      (some sb, { flow1 with nextCheckAfter := some 0 })
  | none =>
    let sb := tip - backscan
    let e1 := { emptyEntry with startBlock := some (some sb) }
    let flow1 := { flow with chainProgress := some (progress.set chain (some e1)) }
    (some sb, { flow1 with nextCheckAfter := some 0 })

/-- The deposit engine's catch block (trackerManager.ts, lines 486–503):
unconditionally `status := 'failed'` with
`errorState = { error, occurredAt }` — there is no prior-status re-read
and no `reason` key. -/
def engineFailDeposit (flow : Flow) (msg : String) (now : Nat) : Flow :=
  { flow with
    status := ("failed"),
    errorState := some [(("error"), msg), (("occurredAt"), toString now)],
    updatedAt := now }

/-- Step 2 of `trackDepositFlow` after the Noble poll returns (lines
345–365): confirm the chain entry per latched condition, then throw
`Noble deposit tracking incomplete` — caught by the block above — when
either condition is still missing.  The poller reports a timed-out,
match-less poll with both flags false, indistinguishable from any other
incomplete poll. -/
def depositNobleStepResult (flow : Flow) (receivedFound forwardFound : Bool)
    (now : Nat) : Flow :=
  let confirmUpd : EntryUpdates :=
    { status := some ("confirmed"), txHash := none, lastCheckedAt := some now }
  let flow1 := if receivedFound then updateChainProgressOp flow .noble confirmUpd now else flow
  let flow2 := if forwardFound then updateChainProgressOp flow1 .noble confirmUpd now else flow1
  if receivedFound && forwardFound then flow2
  else engineFailDeposit flow2 ("Noble deposit tracking incomplete") now

/-- The Noble start height of `trackPaymentFlow` (lines 539–541):
`flow.chainProgress?.noble?.startBlock ?? (latest - backscan)` — the
`??` fallback (also taken for an explicit `null`) is plain subtraction,
is not clamped at zero, and is never persisted. -/
def paymentNobleStartHeight (flow : Flow) (tip backscan : Nat) : Int :=
  match startBlockOf flow .noble with
  | some (some n) => (n : Int)
  | _ => (tip : Int) - (backscan : Int)

/-- The EVM mint step of `trackPaymentFlow` (lines 603–621) builds its
poll parameters without any `fromBlock` field. -/
def paymentEvmMintFromBlock : Option Nat := none

/-! ## The EVM poller (`pollUsdcMint`, pollers/evmPoller.ts)

The chain is abstracted as the list of Transfer logs that satisfy the
address/topic filter (zero-address sender, fixed recipient, USDC
contract); `getLogs` restricts them to the requested block range.  One
`round` of the scan loop observes one `getBlockNumber` answer; the
rounds list ending models the timeout/abort exit of the loop. -/

structure EvmLogRec where
  txHash : String
  blockNumber : Nat
  value : Int
deriving DecidableEq, Repr

def evmGetLogs (chainLogs : List EvmLogRec) (fromBlock toBlock : Nat) : List EvmLogRec :=
  chainLogs.filter (fun l => fromBlock ≤ l.blockNumber && l.blockNumber ≤ toBlock)

def evmScanRounds (chainLogs : List EvmLogRec) (amount : Int) :
    Nat → List Nat → Option EvmLogRec
  | _, [] => none
  | fromBlock, tip :: tips =>
    if tip < fromBlock then evmScanRounds chainLogs amount fromBlock tips
    else
      match (evmGetLogs chainLogs fromBlock tip).find? (fun l => l.value = amount) with
      | some l => some l
      | none => evmScanRounds chainLogs amount (tip + 1) tips

/-- `pollUsdcMint`: a falsy `fromBlock` parameter (absent, or the bigint
`0n`) makes the poller read the current tip and scan from there. -/
def pollUsdcMint (chainLogs : List EvmLogRec) (amount : Int)
    (fromBlockParam : Option Nat) (tips : List Nat) : Option EvmLogRec :=
  match fromBlockParam with
  | some fb =>
    if fb = 0 then
      match tips with
      | [] => none
      | t0 :: rest => evmScanRounds chainLogs amount t0 rest
    else evmScanRounds chainLogs amount fb tips
  | none =>
    match tips with
    | [] => none
    | t0 :: rest => evmScanRounds chainLogs amount t0 rest

/-! ## The Noble deposit poller (`pollForDeposit`, pollers/noblePoller.ts) -/

/-- The matching parameters; `""` models an absent (falsy) field. -/
structure NobleDepositParams where
  forwardingAddress : String
  expectedAmountUusdc : String
  namadaReceiver : String
deriving DecidableEq, Repr

structure NobleTxResult where
  events : List Event
deriving DecidableEq, Repr

structure NobleBlock where
  txs_results : List NobleTxResult
  finalize_block_events : List Event
deriving DecidableEq, Repr

/-- The `coin_received` condition: transactional event with
`receiver == forwardingAddress` and `amount == expectedAmountUusdc`. -/
def coinReceivedMatch (p : NobleDepositParams) (ev : Event) : Bool :=
  ev.type = ("coin_received") &&
  p.forwardingAddress ≠ "" &&
  indexAttributes ev.attributes ("receiver") = some p.forwardingAddress &&
  p.expectedAmountUusdc ≠ "" &&
  indexAttributes ev.attributes ("amount") = some p.expectedAmountUusdc

/-- The `ibc_transfer` condition: finalize-block event with
`sender == forwardingAddress`, `receiver == namadaReceiver` and
`denom == "uusdc"`. -/
def ibcTransferMatch (p : NobleDepositParams) (ev : Event) : Bool :=
  ev.type = ("ibc_transfer") &&
  p.forwardingAddress ≠ "" &&
  p.namadaReceiver ≠ "" &&
  indexAttributes ev.attributes ("sender") = some p.forwardingAddress &&
  indexAttributes ev.attributes ("receiver") = some p.namadaReceiver &&
  indexAttributes ev.attributes ("denom") = some ("uusdc")

def blockCoinReceived (p : NobleDepositParams) (b : NobleBlock) : Bool :=
  b.txs_results.any (fun tx => tx.events.any (coinReceivedMatch p))

def blockIbcTransfer (p : NobleDepositParams) (b : NobleBlock) : Bool :=
  b.finalize_block_events.any (ibcTransferMatch p)

/-- The scan loop over consecutive block heights with the two latched
flags; it stops early once both have fired. -/
def nobleScanBlocks (p : NobleDepositParams) :
    List NobleBlock → Bool → Bool → Bool × Bool
  | [], r, f => (r, f)
  | b :: rest, r, f =>
    if r && f then (r, f)
    else nobleScanBlocks p rest (r || blockCoinReceived p b) (f || blockIbcTransfer p b)

structure NobleDepositResult where
  success : Bool
  found : Bool
  receivedFound : Bool
  forwardFound : Bool
deriving DecidableEq, Repr

/-- `pollForDeposit` over the blocks the scan visits before match,
deadline or abort. -/
def noblePollForDeposit (p : NobleDepositParams) (blocks : List NobleBlock) :
    NobleDepositResult :=
  let rf := nobleScanBlocks p blocks false false
  { success := rf.1 && rf.2, found := rf.1 && rf.2,
    receivedFound := rf.1, forwardFound := rf.2 }

/-! ## The Namada deposit poller (`pollForDeposit`, pollers/namadaPoller.ts) -/

structure NamadaDepositParams where
  forwardingAddress : String
  namadaReceiver : String
  expectedAmountUusdc : String
  denom : String
deriving DecidableEq, Repr

/-- The IBC success acknowledgement literal. -/
def namadaAckLiteral : String := ("\x7b\"result\":\"AQ==\"\x7d")

/-- Strict equality of a decoded JSON field with a string
(`field === someString`). -/
def jsonFieldIsStr (j : Option Json) (s : String) : Bool :=
  match j with
  | some (Json.str t) => t = s
  | _ => false

/-- One `end_block_events` entry as namadaPoller.ts processes it: only
`write_acknowledgement` events are considered; the acknowledgement must
equal the success literal; `packet_data` is decoded inline (a parse
failure skips the event); sender / receiver / denom / amount are
matched; on success the event's own `inner-tx-hash` attribute — present
or not — is returned. -/
def namadaEventMatch (p : NamadaDepositParams) (ev : Event) :
    Option (Option String) :=
  if ev.type ≠ ("write_acknowledgement") then none
  else
    let attrs := ev.attributes
    let ack := indexAttributes attrs ("packet_ack")
    let pdata := indexAttributes attrs ("packet_data")
    let inner := indexAttributes attrs ("inner-tx-hash")
    if ack ≠ some namadaAckLiteral then none
    else
      match namadaParsePacketData pdata with
      | none => none
      | some parsed =>
        let denom := if p.denom = "" then ("uusdc") else p.denom
        let receiverMatches :=
          p.namadaReceiver ≠ "" && jsonFieldIsStr (parsed.get ("receiver")) p.namadaReceiver
        let senderMatches :=
          p.forwardingAddress ≠ "" && jsonFieldIsStr (parsed.get ("sender")) p.forwardingAddress
        let denomMatches := jsonFieldIsStr (parsed.get ("denom")) denom
        let amountMatches :=
          if p.expectedAmountUusdc = "" then true
          else
            let expectedNumeric := jsReplaceFirst p.expectedAmountUusdc ("uusdc")
            let actualNumeric :=
              match parsed.get ("amount") with
              | none => ("")
              | some Json.null => ("")
              | some j => jsReplaceFirst j.jsToString ("uusdc")
            expectedNumeric = actualNumeric
        if receiverMatches && senderMatches && denomMatches && amountMatches
        then some inner else none

/-- The per-block pass of the Namada poller: the first matching
`write_acknowledgement` wins; `some inner` reports the match together
with the inner hash taken from that same event. -/
def scanNamadaBlock (p : NamadaDepositParams) (endBlockEvents : List Event) :
    Option (Option String) :=
  endBlockEvents.findSome? (namadaEventMatch p)

/-! ## Concrete fixtures used by the counterexamples and evaluations -/

/-- A deposit flow that has reached `completed` but whose stored
`chainProgress` has no chain entries (nothing in the data model ties the
two together). -/
def completedBareFlow : Flow :=
  { id := ("cuid-1"), txHash := some ("0xabc"), chain := ("sepolia"),
    chainType := ("evm"), flowType := some ("deposit"),
    initialChain := some ("sepolia"), destinationChain := some ("namada-testnet"),
    status := ("completed"), chainProgress := some emptyChainProgress,
    metadata := [], lastCheckedAt := none, nextCheckAfter := none,
    errorState := none, createdAt := 0, updatedAt := 0 }

/-- A minimal client stage append (every optional field omitted). -/
def bareStageUpdate : ClientStageUpdate :=
  { chain := .evm, stage := ("evm_attested"), status := none, message := none,
    txHash := none, occurredAt := none, metadata := [], kind := none,
    source := none }

/-- A flow parked at the `undetermined` verdict. -/
def undeterminedFlow : Flow :=
  { completedBareFlow with
    id := ("cuid-2"), txHash := some ("0xdef"), status := ("undetermined") }

/-- The job `resumeUnfinishedFlows` builds for `undeterminedFlow` at
`now = 9`. -/
def undeterminedFlowResumeJob : Job :=
  { name := ("flow-cuid-2"), jobId := ("resume-cuid-2-9"), flowId := ("cuid-2"),
    flowType := ("deposit"), delay := some 1000 }

/-- A completed flow whose EVM entry records the mint transaction hash. -/
def completedFlowWithHash : Flow :=
  { completedBareFlow with
    chainProgress := some { emptyChainProgress with
      evm := some { emptyEntry with
        status := some ("confirmed"), txHash := some ("0xhash9") } } }

/-- The `end_block_events` of Namada block 3418841 as reproduced by the
repository's own integration fixture (`buildNamadaRpcClient` in
`__tests__/depositFlow.integration.spec.ts`): the inner transaction hash
travels in a separate `message` event, not on `write_acknowledgement`. -/
def namadaBlock3418841 : List Event :=
  [ { type := ("message"), attributes :=
      [ ⟨("inner-tx-hash"), ("DCAB74328D560B46CE014E5723D74B7A8440F1AC1574698AC016A9D55AF59D80")⟩,
        ⟨("hash"), ("78B9CDB9869E0CD6D644958F8421630866ECAEB62CA2A1B7715337A1DB00D6C5")⟩,
        ⟨("height"), ("3418841")⟩ ] },
    { type := ("write_acknowledgement"), attributes :=
      [ ⟨("packet_ack"), ("\x7b\"result\":\"AQ==\"\x7d")⟩,
        ⟨("packet_data"), ("\x7b\"sender\":\"noble1cugfxuln9k2zsvey7yuaeckr7avfzffd7d44jp\",\"receiver\":\"tnam1qprxs9n5afscskramwajyrdjw5a64lwweudc0l78\",\"denom\":\"uusdc\",\"amount\":\"100000uusdc\"\x7d")⟩,
        ⟨("packet_dst_channel"), ("channel-27")⟩,
        ⟨("packet_dst_port"), ("transfer")⟩,
        ⟨("packet_sequence"), ("799")⟩,
        ⟨("packet_src_channel"), ("channel-639")⟩,
        ⟨("packet_src_port"), ("transfer")⟩ ] } ]

/-- The matching parameters of the deposit scenario behind that block. -/
def namadaBlock3418841Params : NamadaDepositParams :=
  { forwardingAddress := ("noble1cugfxuln9k2zsvey7yuaeckr7avfzffd7d44jp"),
    namadaReceiver := ("tnam1qprxs9n5afscskramwajyrdjw5a64lwweudc0l78"),
    expectedAmountUusdc := ("100000uusdc"), denom := ("") }

/-- A payment flow whose Noble entry exists but has no `startBlock`. -/
def paymentFlowNoStart : Flow :=
  { completedBareFlow with
    id := ("cuid-3")
    txHash := some ("0xpay")
    flowType := some ("payment")
    status := ("pending")
    chainProgress := some { emptyChainProgress with noble := some createPendingEntry } }

/-- The spec's stage-timeout scenario: the deposit flow of tx
`0xd8294b…3759`, still pending, whose Noble stage poll came back with
neither condition latched after its wall-clock budget. -/
def timeoutScenarioFlow : Flow :=
  { completedBareFlow with
    id := ("cuid-4")
    txHash := some ("0xd8294b1c510caa839db96ca7a9992c3e53ed082b1e9467a8311a0747435d3759")
    status := ("pending")
    chainProgress := some { emptyChainProgress with
      noble := some createPendingEntry, namada := some createPendingEntry }
    metadata := [(("forwardingAddress"), ("noble1cugfxuln9k2zsvey7yuaeckr7avfzffd7d44jp")),
      (("namadaReceiver"), ("tnam1qprxs9n5afscskramwajyrdjw5a64lwweudc0l78")),
      (("expectedAmountUusdc"), ("100000uusdc"))] }

/-- A flow whose Noble `startBlock` is already persisted (height 42). -/
def startBlockFlow42 : Flow :=
  { completedBareFlow with
    id := ("cuid-5")
    txHash := some ("0xsb42")
    status := ("pending")
    chainProgress := some { emptyChainProgress with
      noble := some { createPendingEntry with startBlock := some (some 42) } } }

/-- A Transfer log already matching the EVM mint filter. -/
def mintLog : EvmLogRec :=
  { txHash := ("0x123"), blockNumber := 1000, value := 1000000 }

/-- The registration request of the spec's idempotency scenario. -/
def depositTrackInput : MultiChainTrackInput :=
  { flowType := some ("deposit")
    initialChain := ("sepolia")
    destinationChain := some ("namada-testnet")
    chainType := ("evm")
    txHash := some ("0xd8294b1c510caa839db96ca7a9992c3e53ed082b1e9467a8311a0747435d3759")
    metadata := [(("nobleForwardingAddress"), ("noble1cugfxuln9k2zsvey7yuaeckr7avfzffd7d44jp"))]
    chainProgress := none
    status := none }

/-- An empty service store. -/
def emptyServiceState : ServiceState := { flows := [], nextId := 0, jobs := [] }

/-- The `startBlock` view of an optional chain entry. -/
def sbOf (o : Option ChainProgressEntry) : Option (Option Nat) :=
  match o with
  | none => none
  | some e => e.startBlock


/-! ## Supporting lemmas -/

lemma exists_of_findSome?_mem {α β : Type} (f : α → Option β) :
    ∀ (l : List α) (b : β), l.findSome? f = some b → ∃ a ∈ l, f a = some b := by
  intro l
  induction l with
  | nil => intro b h; simp [List.findSome?] at h
  | cons a t ih =>
    intro b h
    rw [List.findSome?_cons] at h
    rcases hfa : f a with _ | v
    · rw [hfa] at h
      obtain ⟨a2, ha2, hfa2⟩ := ih b h
      exact ⟨a2, List.mem_cons_of_mem a ha2, hfa2⟩
    · rw [hfa] at h
      cases h
      exact ⟨a, List.mem_cons_self a t, hfa⟩

/-- `chainShortCircuit` only produces `pending` or `failed`. -/
lemma chainShortCircuit_cases (progress : ChainProgress) (c : ChainKey) (s : String)
    (h : chainShortCircuit progress c = some s) : s = ("pending") ∨ s = ("failed") := by
  unfold chainShortCircuit at h
  split at h
  · cases h; exact Or.inl rfl
  · split at h
    · cases h; exact Or.inr rfl
    · cases h

/-- `finalChainStatus` only produces `completed` or `pending`. -/
lemma finalChainStatus_cases (progress : ChainProgress) (lc : ChainKey) :
    finalChainStatus progress lc = ("completed") ∨ finalChainStatus progress lc = ("pending") := by
  unfold finalChainStatus
  split
  · exact Or.inr rfl
  · split
    · split
      · exact Or.inl rfl
      · exact Or.inr rfl
    · exact Or.inr rfl

/-- `determineOverallStatus` only ever produces `pending`, `failed` or
`completed`; in particular a lost `undetermined` verdict cannot be
restored by a client-stage append. -/
lemma determineOverallStatus_ne_undetermined (ft : Option String) (p : ChainProgress) :
    determineOverallStatus ft p ≠ ("undetermined") := by
  unfold determineOverallStatus
  dsimp only
  split
  · next s hm =>
    obtain ⟨c, _, hfc⟩ := exists_of_findSome?_mem _ _ s hm
    rcases chainShortCircuit_cases p c s hfc with h | h <;> simp [h]
  · rcases finalChainStatus_cases p (if ft = some ("payment") then ChainKey.evm else ChainKey.namada)
      with h | h <;> simp [h]

/-! ## Claim C1 — terminal-status stability -/

/-- C1 (amended): terminal statuses are not guarded in general.  The
engine's per-chain progress writes leave the overall status untouched,
but (a) the client-stage append recomputes the overall status from the
updated `chainProgress` alone — the prior status, terminal or not, is
never consulted, and the recomputed value is never `undetermined`, so a
terminal `undetermined` does not survive an append that changes it — and
(b) the deposit engine's catch path writes `failed` unconditionally. -/
theorem clientStage_and_error_path_ignore_prior_status
    (flow : Flow) (chain : ChainKey) (eu : EntryUpdates) (u : ClientStageUpdate)
    (msg : String) (now : Nat) (s' : String) :
    (updateChainProgressOp flow chain eu now).status = flow.status
    ∧ (appendClientStage flow u now).status
        = determineOverallStatus flow.flowType (appendClientStageProgress flow u now)
    ∧ (appendClientStage { flow with status := s' } u now).status
        = (appendClientStage flow u now).status
    ∧ (appendClientStage flow u now).status ≠ ("undetermined")
    ∧ (engineFailDeposit flow msg now).status = ("failed") :=
  ⟨rfl, rfl, rfl, determineOverallStatus_ne_undetermined _ _, rfl⟩

/-- C1 (counterexample): a flow whose status is terminal (`completed`)
is reset to `pending` by a client-stage append — the claim's "no
operation ever overwrites a terminal status" fails on
`appendClientStage`. -/
theorem clientStage_overwrites_completed :
    terminalStatus completedBareFlow.status = true
    ∧ (appendClientStage completedBareFlow bareStageUpdate 5).status = ("pending")
    ∧ (appendClientStage completedBareFlow bareStageUpdate 5).status
        ≠ completedBareFlow.status :=
  ⟨rfl, rfl, by decide⟩

/-! ## Claim C2 — stage timeout handling -/

/-- C2: in the engine at
`src/modules/tx-tracker/trackerManager.ts`, a Noble stage poll that
exhausts its wall-clock budget without a match comes back with both
latched flags false and is handled by the `Noble deposit tracking
incomplete` throw and the catch block: the flow ends `failed` — never
`undetermined` — and its `errorState` carries an `error` message but no
`reason` key, contradicting the claimed
`status = undetermined, errorState.reason = "timeout"`. -/
theorem deposit_stage_timeout_marks_failed :
    (depositNobleStepResult timeoutScenarioFlow false false 60000).status = ("failed")
    ∧ (depositNobleStepResult timeoutScenarioFlow false false 60000).status
        ≠ ("undetermined")
    ∧ ((depositNobleStepResult timeoutScenarioFlow false false 60000).errorState.getD
        []).lookup ("reason") = none
    ∧ ((depositNobleStepResult timeoutScenarioFlow false false 60000).errorState.getD
        []).lookup ("error") = some ("Noble deposit tracking incomplete") :=
  ⟨rfl, by decide, rfl, rfl⟩

/-! ## Claim C4 — resume-on-startup scope and the worker short-circuit -/

/-- C4 (counterexample): a flow parked at the terminal `undetermined`
verdict is re-enqueued by resume (it is not in `FINISHED_STATUSES`),
and the worker does not short-circuit on it but invokes the engine. -/
theorem resume_undetermined_flow_enqueued :
    terminalStatus undeterminedFlow.status = true
    ∧ resumeUnfinishedFlows [undeterminedFlow] 9 = [undeterminedFlowResumeJob]
    ∧ processTxPollingJob [undeterminedFlow] ("cuid-2") = .engineInvoked :=
  ⟨rfl, rfl, rfl⟩

/-! ## Claim C5 — the Namada deposit matcher -/

/-- C5: on the repository's own fixture for Namada block 3418841 (the
inner hash travels in a separate `message` event, as on the real chain),
the single-pass matcher of namadaPoller.ts matches the
`write_acknowledgement` but returns no inner transaction hash
(`some none`), although the block's `message` event carries it — the
claimed two-pass lookup is not what the code does. -/
theorem namada_one_pass_block_3418841 :
    scanNamadaBlock namadaBlock3418841Params namadaBlock3418841 = some none
    ∧ ((namadaBlock3418841.find? (fun ev => ev.type = ("message"))).bind
        (fun ev => indexAttributes ev.attributes ("inner-tx-hash")))
        = some ("DCAB74328D560B46CE014E5723D74B7A8440F1AC1574698AC016A9D55AF59D80") :=
  ⟨rfl, rfl⟩

/-! ## Claim C9 — lookup by chain-specific hash -/

/-- C9: a completed flow carrying the requested hash in its
`chainProgress` is invisible to `GET /flow/by-hash/:chain/:hash`: the
handler searches `listUnfinishedFlows()` only, so the lookup 404s
although a stored flow carries the hash. -/
theorem flow_by_hash_misses_completed_flow :
    flowCarriesHash completedFlowWithHash ("0xhash9") = true
    ∧ terminalStatus completedFlowWithHash.status = true
    ∧ flowByHashLookup [completedFlowWithHash] ("0xhash9") = none :=
  ⟨rfl, rfl, rfl⟩

/-! ## Claim C6 — the Noble deposit poller latches both conditions -/

/-- The scan loop's two flags latch: the outcome over a block list is the
disjunction of the per-block matches, independent of where each fired. -/
lemma nobleScanBlocks_eq (p : NobleDepositParams) (bs : List NobleBlock) :
    ∀ r f : Bool, nobleScanBlocks p bs r f
      = (r || bs.any (blockCoinReceived p), f || bs.any (blockIbcTransfer p)) := by
  induction bs with
  | nil => intro r f; simp [nobleScanBlocks]
  | cons b t ih =>
    intro r f
    simp only [nobleScanBlocks, List.any_cons]
    cases r <;> cases f <;> simp [ih, Bool.or_assoc]

/-- C6: `pollForDeposit` succeeds exactly when a `coin_received` event
matching the forwarding address and expected amount was observed in some
scanned block's transactional events and an `ibc_transfer` event
matching sender/receiver/denom was observed in some (possibly different)
scanned block's finalize-block events; each flag equals its own
existential, so a condition stays latched wherever the other fires. -/
theorem noble_deposit_success_iff_both_latched
    (p : NobleDepositParams) (blocks : List NobleBlock) :
    ((noblePollForDeposit p blocks).success = true ↔
      ((∃ b ∈ blocks, blockCoinReceived p b = true)
        ∧ (∃ b ∈ blocks, blockIbcTransfer p b = true)))
    ∧ (noblePollForDeposit p blocks).receivedFound = blocks.any (blockCoinReceived p)
    ∧ (noblePollForDeposit p blocks).forwardFound = blocks.any (blockIbcTransfer p)
    ∧ (noblePollForDeposit p blocks).success
        = ((noblePollForDeposit p blocks).receivedFound
            && (noblePollForDeposit p blocks).forwardFound) := by
  have h := nobleScanBlocks_eq p blocks false false
  refine ⟨?_, ?_, ?_, ?_⟩ <;>
    simp [noblePollForDeposit, h, List.any_eq_true]

/-! ## Claim C10 — the EVM mint poller without a fromBlock -/

/-- Every scan round queries `[fromBlock, tip]` and then advances
`fromBlock` to `tip + 1`, so a returned log is never below the initial
`fromBlock`. -/
lemma evmScanRounds_ge (chainLogs : List EvmLogRec) (amount : Int) :
    ∀ (tips : List Nat) (fb : Nat) (l : EvmLogRec),
      evmScanRounds chainLogs amount fb tips = some l → fb ≤ l.blockNumber := by
  intro tips
  induction tips with
  | nil => intro fb l h; simp [evmScanRounds] at h
  | cons tip rest ih =>
    intro fb l h
    rw [evmScanRounds] at h
    split at h
    · next hlt => exact ih fb l h
    · next hlt =>
      split at h
      · next l' hfind =>
        cases h
        have hmem := List.mem_of_find?_eq_some hfind
        have hcond := (List.mem_filter.mp hmem).2
        simp only [Bool.and_eq_true, decide_eq_true_eq] at hcond
        exact hcond.1
      · have h2 := ih (tip + 1) l h
        omega

/-- C10: the payment flow's EVM mint step passes no `fromBlock`, and the
poller invoked that way scans only from the first chain tip it reads
(`tip0`) onward: whatever log it returns was mined at or after `tip0`,
so a matching Transfer log mined strictly before that first tip read is
never matched by the run. -/
theorem payment_evm_mint_scans_from_tip :
    paymentEvmMintFromBlock = none
    ∧ ∀ (chainLogs : List EvmLogRec) (amount : Int) (tip0 : Nat) (rest : List Nat)
        (l : EvmLogRec),
        pollUsdcMint chainLogs amount paymentEvmMintFromBlock (tip0 :: rest) = some l →
          tip0 ≤ l.blockNumber := by
  refine ⟨rfl, ?_⟩
  intro chainLogs amount tip0 rest l h
  simp only [paymentEvmMintFromBlock, pollUsdcMint] at h
  exact evmScanRounds_ge chainLogs amount rest tip0 l h

/-- Witness for C10 at a concrete chain: a log at height 1000 found from
first tip 999. -/
theorem payment_evm_mint_scans_from_tip_witness :
    pollUsdcMint [mintLog] 1000000 paymentEvmMintFromBlock [999, 1000] = some mintLog
    ∧ 999 ≤ mintLog.blockNumber :=
  ⟨rfl, payment_evm_mint_scans_from_tip.2 [mintLog] 1000000 999 [1000] mintLog rfl⟩

/-! ## Claim C8 — the packet_data decoders -/

/-- C8 (amended): the shared decoder `parseMaybeJsonOrBase64Json` tries
raw JSON and then base64-encoded JSON, using the first that parses (an
input in the wrapped-`value` shape is itself raw JSON, so it decodes to
the wrapper object); the Namada poller's inline decoder tries raw JSON
only. -/
theorem packet_data_decoder_order (s : String) :
    (∀ j, parseJson s = some j → parseMaybeJsonOrBase64Json (some s) = some j)
    ∧ (s ≠ "" → parseJson s = none →
        parseMaybeJsonOrBase64Json (some s) = parseJson (base64DecodeString s))
    ∧ namadaParsePacketData (some s) = parseJson s := by
  refine ⟨?_, ?_, rfl⟩
  · intro j hj
    have hs : s ≠ "" := by
      intro he
      have h0 : parseJson ("") = none := rfl
      rw [he, h0] at hj
      cases hj
    simp [parseMaybeJsonOrBase64Json, hs, hj]
  · intro hs hn
    simp [parseMaybeJsonOrBase64Json, hs, hn]

/-- C8 (counterexample): `"e30="` is base64-encoded JSON (it decodes to
`{}`) and is not raw JSON; the shared decoder falls back to base64 and
yields the object, but the Namada poller's packet_data decode yields
nothing — the claimed three-step fallback does not hold at that site. -/
theorem namada_decoder_skips_base64 :
    parseJson ("e30=") = none
    ∧ parseMaybeJsonOrBase64Json (some ("e30=")) = some (Json.obj [])
    ∧ namadaParsePacketData (some ("e30=")) = none :=
  ⟨rfl, rfl, rfl⟩

/-- Witness for C8 at concrete inputs: raw JSON wins on `"{}"`, and on
`"e30="` the shared decoder equals the base64 fallback. -/
theorem packet_data_decoder_order_witness :
    parseMaybeJsonOrBase64Json (some ("\x7b\x7d")) = some (Json.obj [])
    ∧ parseMaybeJsonOrBase64Json (some ("e30="))
        = parseJson (base64DecodeString ("e30=")) :=
  ⟨(packet_data_decoder_order ("\x7b\x7d")).1 (Json.obj []) rfl,
   (packet_data_decoder_order ("e30=")).2.1 (by decide) rfl⟩

/-! ## Claim C3 — idempotent flow registration -/

lemma find?_append_none {α : Type} (p : α → Bool) (l1 l2 : List α)
    (h : l1.find? p = none) : (l1 ++ l2).find? p = l2.find? p := by
  induction l1 with
  | nil => simp
  | cons a t ih =>
    simp only [List.find?_cons] at h
    simp only [List.cons_append, List.find?_cons]
    cases hp : p a
    · rw [hp] at h
      simp only [Bool.false_eq_true, reduceIte] at h ⊢
      exact ih h
    · rw [hp] at h
      simp at h

/-- `trackFlow` returns the stored flow untouched when a flow with the
same (truthy) `txHash` already exists. -/
lemma trackFlow_existing (s : ServiceState) (input : MultiChainTrackInput)
    (nt nmt : Option Nat) (nb nab now : Nat) (h : String) (f : Flow)
    (hhash : input.txHash = some h) (hne : h ≠ "")
    (hfound : findByHash s.flows h = some f) :
    trackFlow s input nt nmt nb nab now = (f, s) := by
  simp [trackFlow, hhash, hne, hfound]

/-- `trackFlow` on a fresh (truthy) `txHash` creates one flow carrying
that hash and enqueues exactly one polling job. -/
lemma trackFlow_creates (s : ServiceState) (input : MultiChainTrackInput)
    (nt nmt : Option Nat) (nb nab now : Nat) (h : String)
    (hhash : input.txHash = some h) (hne : h ≠ "")
    (habs : findByHash s.flows h = none) :
    (trackFlow s input nt nmt nb nab now).1.txHash = input.txHash
    ∧ (trackFlow s input nt nmt nb nab now).2.flows
        = s.flows ++ [(trackFlow s input nt nmt nb nab now).1]
    ∧ (trackFlow s input nt nmt nb nab now).2.jobs.length = s.jobs.length + 1
    ∧ (trackFlow s input nt nmt nb nab now).2.flows.length = s.flows.length + 1 := by
  simp [trackFlow, hhash, hne, habs, createMultiChainFlow]

/-- C3: two sequential `trackFlow` calls with the same non-empty
`txHash` return the same flow id; the second call changes nothing (no
flow created, no job enqueued), so exactly one polling job and one flow
row result from the pair of calls. -/
theorem trackFlow_idempotent_on_txHash
    (s : ServiceState) (input : MultiChainTrackInput)
    (nt nmt : Option Nat) (nb nab now1 now2 : Nat) (h : String)
    (hhash : input.txHash = some h) (hne : h ≠ "")
    (habs : findByHash s.flows h = none) :
    ((trackFlow (trackFlow s input nt nmt nb nab now1).2 input nt nmt nb nab now2).1.id
      = (trackFlow s input nt nmt nb nab now1).1.id)
    ∧ (trackFlow (trackFlow s input nt nmt nb nab now1).2 input nt nmt nb nab now2).2
      = (trackFlow s input nt nmt nb nab now1).2
    ∧ (trackFlow s input nt nmt nb nab now1).2.jobs.length = s.jobs.length + 1
    ∧ (trackFlow s input nt nmt nb nab now1).2.flows.length = s.flows.length + 1 := by
  obtain ⟨ht, hfl, hjl, hfll⟩ := trackFlow_creates s input nt nmt nb nab now1 h hhash hne habs
  have hfound : findByHash (trackFlow s input nt nmt nb nab now1).2.flows h
      = some (trackFlow s input nt nmt nb nab now1).1 := by
    rw [hfl]
    unfold findByHash at habs ⊢
    rw [find?_append_none _ _ _ habs]
    simp [List.find?_cons, ht, hhash]
  have h2 := trackFlow_existing (trackFlow s input nt nmt nb nab now1).2 input nt nmt nb nab
    now2 h (trackFlow s input nt nmt nb nab now1).1 hhash hne hfound
  exact ⟨by rw [h2], by rw [h2], hjl, hfll⟩

/-- Witness for C3: registering the spec's deposit transaction twice on
an empty store. -/
theorem trackFlow_idempotent_on_txHash_witness :
    ((trackFlow (trackFlow emptyServiceState depositTrackInput none none 0 0 1).2
        depositTrackInput none none 0 0 2).1.id
      = (trackFlow emptyServiceState depositTrackInput none none 0 0 1).1.id)
    ∧ (trackFlow (trackFlow emptyServiceState depositTrackInput none none 0 0 1).2
        depositTrackInput none none 0 0 2).2
      = (trackFlow emptyServiceState depositTrackInput none none 0 0 1).2
    ∧ (trackFlow emptyServiceState depositTrackInput none none 0 0 1).2.jobs.length
        = emptyServiceState.jobs.length + 1
    ∧ (trackFlow emptyServiceState depositTrackInput none none 0 0 1).2.flows.length
        = emptyServiceState.flows.length + 1 :=
  trackFlow_idempotent_on_txHash emptyServiceState depositTrackInput none none 0 0 1 2
    ("0xd8294b1c510caa839db96ca7a9992c3e53ed082b1e9467a8311a0747435d3759")
    rfl (by decide) rfl

/-- C4 (amended): resume enqueues exactly the flows with a non-null
`flowType` whose status is outside `FINISHED_STATUSES` =
{completed, failed, cancelled} — so `undetermined` flows are re-enqueued
— each with the `resume-<flowId>-<now>` job (1 s delay); and the worker
short-circuits exactly when the loaded flow's status is `completed` or
`failed`, invoking the engine for everything else, `undetermined`
included. -/
theorem resume_scope_and_skip (flows : List Flow) (now : Nat) :
    (∀ j : Job, j ∈ resumeUnfinishedFlows flows now ↔
      ∃ f, f ∈ flows ∧ f.flowType.isSome = true
        ∧ finishedStatuses.contains f.status = false ∧ j = resumeJobFor f now)
    ∧ (∀ fid : String, processTxPollingJob flows fid = .skippedFinished ↔
        ∃ f, flows.find? (fun g => g.id = fid) = some f
          ∧ (f.status = ("completed") ∨ f.status = ("failed")))
    ∧ (∀ fid : String, processTxPollingJob flows fid = .engineInvoked ↔
        ∃ f, flows.find? (fun g => g.id = fid) = some f
          ∧ ¬(f.status = ("completed") ∨ f.status = ("failed"))) := by
  refine ⟨?_, ?_, ?_⟩
  · intro j
    simp only [resumeUnfinishedFlows, findUnfinishedFlows, List.mem_map, List.mem_filter,
      Bool.and_eq_true, Bool.not_eq_true']
    constructor
    · rintro ⟨f, ⟨hf, h1, h2⟩, hj⟩
      exact ⟨f, hf, h1, h2, hj.symm⟩
    · rintro ⟨f, hf, h1, h2, hj⟩
      exact ⟨f, ⟨hf, h1, h2⟩, hj.symm⟩
  · intro fid
    unfold processTxPollingJob
    rcases hf : flows.find? (fun g => g.id = fid) with _ | f
    · rw [hf]; simp
    · rw [hf]
      by_cases hs : f.status = ("completed") ∨ f.status = ("failed")
      · simp [hs]
      · push_neg at hs
        simp [hs.1, hs.2]
  · intro fid
    unfold processTxPollingJob
    rcases hf : flows.find? (fun g => g.id = fid) with _ | f
    · rw [hf]; simp
    · rw [hf]
      by_cases hs : f.status = ("completed") ∨ f.status = ("failed")
      · rcases hs with hs | hs <;> simp [hs]
      · push_neg at hs
        simp [hs.1, hs.2]

/-! ## Claim C7 — startBlock write-once -/

lemma ChainProgress.get_set_self (p : ChainProgress) (c : ChainKey)
    (e : Option ChainProgressEntry) : (p.set c e).get c = e := by
  cases c <;> rfl

lemma ChainProgress.get_set_ne (p : ChainProgress) (c c' : ChainKey)
    (e : Option ChainProgressEntry) (h : c' ≠ c) : (p.set c e).get c' = p.get c' := by
  cases c <;> cases c' <;> first | rfl | exact absurd rfl h

lemma ChainProgress.get_empty (c : ChainKey) : emptyChainProgress.get c = none := by
  cases c <;> rfl

lemma startBlockOf_eq (flow : Flow) (c : ChainKey) :
    startBlockOf flow c
      = match flow.chainProgress with
        | none => none
        | some p => sbOf (p.get c) := by
  unfold startBlockOf sbOf
  rcases flow.chainProgress with _ | p
  · rfl
  · rcases p.get c with _ | e <;> rfl

/-- C7 (amended): a persisted `startBlock` — an explicit `null`
included — is returned untouched by `ensureStartBlock`; only an absent
one is derived and written, after which it reads back as
`tip - backscan`; and no other modelled operation (client-stage append,
the engine's per-chain progress writes, the engine failure path) ever
changes a stored `startBlock`. -/
theorem startBlock_write_once (flow : Flow) (chain : ChainKey) (tip bs : Nat) :
    (∀ v, startBlockOf flow chain = some v → ensureStartBlock flow chain tip bs = (v, flow))
    ∧ (startBlockOf flow chain = none →
        (ensureStartBlock flow chain tip bs).1 = some (tip - bs)
        ∧ startBlockOf (ensureStartBlock flow chain tip bs).2 chain = some (some (tip - bs)))
    ∧ (∀ u now ck, startBlockOf (appendClientStage flow u now) ck = startBlockOf flow ck)
    ∧ (∀ eu now ck, startBlockOf (updateChainProgressOp flow chain eu now) ck
        = startBlockOf flow ck)
    ∧ (∀ msg now ck, startBlockOf (engineFailDeposit flow msg now) ck
        = startBlockOf flow ck) := by
  refine ⟨?_, ?_, ?_, ?_, ?_⟩
  · intro v hv
    rw [startBlockOf_eq] at hv
    rcases hcp : flow.chainProgress with _ | p
    · rw [hcp] at hv; cases hv
    · rw [hcp] at hv
      have hv2 : sbOf (p.get chain) = some v := hv
      rcases hge : p.get chain with _ | e
      · rw [hge] at hv2; cases hv2
      · rw [hge] at hv2
        have he : e.startBlock = some v := hv2
        simp [ensureStartBlock, hcp, hge, he]
  · intro hn
    rw [startBlockOf_eq] at hn
    rcases hcp : flow.chainProgress with _ | p
    · constructor
      · simp [ensureStartBlock, hcp, ChainProgress.get_empty]
      · simp [ensureStartBlock, hcp, ChainProgress.get_empty, startBlockOf_eq, sbOf,
          ChainProgress.get_set_self]
    · rw [hcp] at hn
      have hn2 : sbOf (p.get chain) = none := hn
      rcases hge : p.get chain with _ | e
      · constructor
        · simp [ensureStartBlock, hcp, hge]
        · simp [ensureStartBlock, hcp, hge, startBlockOf_eq, sbOf, ChainProgress.get_set_self]
      · rw [hge] at hn2
        have he : e.startBlock = none := hn2
        constructor
        · simp [ensureStartBlock, hcp, hge, he]
        · simp [ensureStartBlock, hcp, hge, he, startBlockOf_eq, sbOf,
            ChainProgress.get_set_self]
  · intro u now ck
    obtain ⟨uc, ust, usta, umsg, utx, uocc, umeta, uk, usrc⟩ := u
    have hL : startBlockOf
          (appendClientStage flow ⟨uc, ust, usta, umsg, utx, uocc, umeta, uk, usrc⟩ now) ck
        = sbOf ((appendClientStageProgress flow
            ⟨uc, ust, usta, umsg, utx, uocc, umeta, uk, usrc⟩ now).get ck) := by
      simp [appendClientStage, startBlockOf_eq]
    rw [hL, startBlockOf_eq]
    by_cases hc : ck = uc
    · subst hc
      simp only [appendClientStageProgress, ChainProgress.get_set_self]
      rcases hcp : flow.chainProgress with _ | p
      · simp only [hcp, Option.getD_none]
        cases ck <;>
          simp only [ChainProgress.get, emptyChainProgress, Option.getD_none, sbOf] <;>
          split <;> rfl
      · simp only [hcp, Option.getD_some]
        rcases hge : p.get ck with _ | e <;>
          simp only [hge, Option.getD_none, Option.getD_some, sbOf, emptyEntry] <;>
          split <;> rfl
    · simp only [appendClientStageProgress]
      rw [ChainProgress.get_set_ne _ _ _ _ hc]
      rcases hcp : flow.chainProgress with _ | p
      · simp only [hcp, Option.getD_none]
        cases ck <;> simp [ChainProgress.get, emptyChainProgress, sbOf]
      · simp [hcp]
  · intro eu now ck
    have hL : startBlockOf (updateChainProgressOp flow chain eu now) ck
        = sbOf (((flow.chainProgress.getD emptyChainProgress).set chain
            (some (mergeEntry (((flow.chainProgress.getD emptyChainProgress).get
              chain).getD emptyEntry) eu))).get ck) := by
      simp [updateChainProgressOp, startBlockOf_eq]
    rw [hL, startBlockOf_eq]
    by_cases hc : ck = chain
    · subst hc
      rw [ChainProgress.get_set_self]
      rcases hcp : flow.chainProgress with _ | p
      · simp only [hcp, Option.getD_none, sbOf, mergeEntry]
        cases ck <;> simp [ChainProgress.get, emptyChainProgress, emptyEntry]
      · simp only [hcp, Option.getD_some]
        rcases hge : p.get ck with _ | e <;>
          simp [hge, sbOf, mergeEntry, emptyEntry]
    · rw [ChainProgress.get_set_ne _ _ _ _ hc]
      rcases hcp : flow.chainProgress with _ | p
      · simp only [hcp, Option.getD_none]
        cases ck <;> simp [ChainProgress.get, emptyChainProgress, sbOf]
      · simp [hcp]
  · intro msg now ck
    rfl

/-- C7 (counterexample): the payment flow's Noble stage of a flow with
no persisted `startBlock` scans from `tip - backscan` (90 for tip 100,
190 for tip 200) while nothing is ever persisted — scanning does not
begin at a persisted `startBlock`, and two runs derive different
heights. -/
theorem payment_noble_start_not_persisted :
    startBlockOf paymentFlowNoStart .noble = none
    ∧ paymentNobleStartHeight paymentFlowNoStart 100 10 = 90
    ∧ paymentNobleStartHeight paymentFlowNoStart 200 10 = 190 :=
  ⟨rfl, rfl, rfl⟩

/-- Witness for C7: the persisted height 42 is reused verbatim; an
absent one is derived as `100 - 10 = 90` and written; an append leaves
the stored height untouched. -/
theorem startBlock_write_once_witness :
    ensureStartBlock startBlockFlow42 .noble 100 10 = (some 42, startBlockFlow42)
    ∧ ((ensureStartBlock paymentFlowNoStart .noble 100 10).1 = some 90
        ∧ startBlockOf (ensureStartBlock paymentFlowNoStart .noble 100 10).2 .noble
            = some (some 90))
    ∧ startBlockOf (appendClientStage startBlockFlow42 bareStageUpdate 1) .noble
        = startBlockOf startBlockFlow42 .noble :=
  ⟨(startBlock_write_once startBlockFlow42 .noble 100 10).1 (some 42) rfl,
   (startBlock_write_once paymentFlowNoStart .noble 100 10).2.1 rfl,
   (startBlock_write_once startBlockFlow42 .noble 100 10).2.2.1 bareStageUpdate 1 .noble⟩

end UsdcV2
